import Mathlib

/-!
Verification of the Drawful game server (`game_state.py`, `server.py`,
`timer.py`, `config.py`) via a shallow embedding in Lean 4.

Python strings are modelled as Lean `String` (a list of `Char`);
`str.lower()` and `str.strip()` are modelled by `pyLower` / `pyStrip`
below (ASCII semantics, which covers every string the game compares).
Python dicts are modelled as insertion-ordered association lists.
Handlers that can raise an uncaught Python exception (`IndexError`,
`KeyError`) return an `HRes.err` carrying the state and the events
emitted before the exception; successful executions return `HRes.ok`.
-/

/-- Python `str.lower` on one character (ASCII range, as `str.lower`
behaves on the game's prompt/guess strings). -/
def pyLowerChar (c : Char) : Char :=
  if h : 65 ≤ c.toNat ∧ c.toNat ≤ 90 then
    Char.ofNatAux (c.toNat + 32) (Or.inl (by omega))
  else c

/-- Characters removed by Python `str.strip()` (ASCII whitespace). -/
def pyIsSpace (c : Char) : Bool :=
  c.toNat == 32 || c.toNat == 9 || c.toNat == 10 || c.toNat == 13 ||
    c.toNat == 11 || c.toNat == 12

/-- Python `str.lower()`. -/
def pyLower (s : String) : String :=
  ⟨s.data.map pyLowerChar⟩

/-- Strip leading and trailing whitespace from a character list. -/
def pyStripList (l : List Char) : List Char :=
  ((l.dropWhile pyIsSpace).reverse.dropWhile pyIsSpace).reverse

/-- Python `str.strip()`. -/
def pyStrip (s : String) : String :=
  ⟨pyStripList s.data⟩

theorem toNat_pyLowerChar_of (c : Char) (h : 65 ≤ c.toNat ∧ c.toNat ≤ 90) :
    (pyLowerChar c).toNat = c.toNat + 32 := by
  simp only [pyLowerChar, dif_pos h]
  simp [Char.ofNatAux, Char.toNat, UInt32.toNat]

theorem pyIsSpace_pyLowerChar (c : Char) :
    pyIsSpace (pyLowerChar c) = pyIsSpace c := by
  by_cases h : 65 ≤ c.toNat ∧ c.toNat ≤ 90
  · have h1 := toNat_pyLowerChar_of c h
    have e1 : pyIsSpace (pyLowerChar c) = false := by
      simp only [pyIsSpace, h1, Bool.or_eq_false_iff, beq_eq_false_iff_ne, ne_eq]
      omega
    have e2 : pyIsSpace c = false := by
      simp only [pyIsSpace, Bool.or_eq_false_iff, beq_eq_false_iff_ne, ne_eq]
      omega
    rw [e1, e2]
  · simp only [pyLowerChar, dif_neg h]

theorem dropWhile_map_pyLowerChar (l : List Char) :
    (l.map pyLowerChar).dropWhile pyIsSpace
      = (l.dropWhile pyIsSpace).map pyLowerChar := by
  induction l with
  | nil => rfl
  | cons c t ih =>
    simp only [List.map_cons, List.dropWhile_cons, pyIsSpace_pyLowerChar]
    by_cases h : pyIsSpace c
    · simp [h, ih]
    · simp [h]

theorem pyStripList_map_pyLowerChar (l : List Char) :
    pyStripList (l.map pyLowerChar) = (pyStripList l).map pyLowerChar := by
  unfold pyStripList
  rw [dropWhile_map_pyLowerChar, ← List.map_reverse, dropWhile_map_pyLowerChar,
    ← List.map_reverse]

/-- `lower` and `strip` commute: stripping a re-cased string strips the
same characters. -/
theorem pyStrip_pyLower (s : String) :
    pyStrip (pyLower s) = pyLower (pyStrip s) := by
  simp only [pyStrip, pyLower, pyStripList_map_pyLowerChar]

theorem pyLower_eq_empty_iff (s : String) : pyLower s = "" ↔ s = "" := by
  constructor
  · intro h
    have : s.data.map pyLowerChar = [] := congrArg String.data h
    have : s.data = [] := List.map_eq_nil_iff.mp this
    cases s
    simp_all
  · intro h
    subst h
    rfl

/-! ## Association-list model of Python dicts -/

/-- `d[k]` lookup (first matching key; Python dict keys are unique). -/
def lookupD {κ α : Type} [DecidableEq κ] : List (κ × α) → κ → Option α
  | [], _ => none
  | (k, v) :: r, key => if k = key then some v else lookupD r key

/-- `d[k] = v`: update in place if the key exists, append otherwise
(Python dicts keep insertion order). -/
def setD {κ α : Type} [DecidableEq κ] : List (κ × α) → κ → α → List (κ × α)
  | [], key, v => [(key, v)]
  | (k, w) :: r, key, v =>
    if k = key then (k, v) :: r else (k, w) :: setD r key v

/-- `if k in d: d[k] = f(d[k])` — modify the entry when present. -/
def updD {κ α : Type} [DecidableEq κ] : List (κ × α) → κ → (α → α) → List (κ × α)
  | [], _, _ => []
  | (k, v) :: r, key, f =>
    if k = key then (k, f v) :: r else (k, v) :: updD r key f

/-- `if k in d: del d[k]` — remove the entry when present. -/
def delD {κ α : Type} [DecidableEq κ] : List (κ × α) → κ → List (κ × α)
  | [], _ => []
  | (k, v) :: r, key => if k = key then r else (k, v) :: delD r key

/-- `d.get(k, dflt)`. -/
def getD {κ α : Type} [DecidableEq κ] (d : List (κ × α)) (k : κ) (dflt : α) : α :=
  (lookupD d k).getD dflt

/-! ## Data model (`game_state.py`) -/

/-- One entry of `game_state.players`
(`{name, emoji, score, likes, ready, color_index, prompt}`). -/
structure Player where
  name : String
  emoji : String
  score : Nat
  likes : Nat
  ready : Bool
  color_index : Nat
  prompt : Option String
  deriving DecidableEq, Repr

/-- One entry of `game_state.drawings` (`{player_id, prompt, image}`). -/
structure Drawing where
  player_id : String
  prompt : String
  image : String
  deriving DecidableEq, Repr

/-- One entry of `game_state.guesses[i]` (`{player_id, guess}`). -/
structure Guess where
  player_id : String
  guess : String
  deriving DecidableEq, Repr

/-- One entry of `game_state.votes[i]` (`{player_id, vote, likes}`);
`vote = none` models Python `None` (the artist's likes-only vote). -/
structure Vote where
  player_id : String
  vote : Option String
  likes : List String
  deriving DecidableEq, Repr

/-- One entry of the `vote_details` list built by
`calculate_scores_for_drawing`. -/
structure VoteDetail where
  voter : String
  vote : String
  correct : Bool
  deriving DecidableEq, Repr

/-- One entry of the `guess_details` list. -/
structure GuessDetail where
  player : String
  guess : String
  deriving DecidableEq, Repr

/-- The dict returned by `calculate_scores_for_drawing`. -/
structure ScoreResult where
  correct_answer : String
  artist : String
  vote_details : List VoteDetail
  guess_details : List GuessDetail
  drawing_image : String
  deriving DecidableEq, Repr

/-- The mutable global `game_state` object. -/
structure GameState where
  phase : String
  players : List (String × Player)
  drawings : List Drawing
  guesses : List (Nat × List Guess)
  votes : List (Nat × List Vote)
  current_drawing_index : Nat
  current_drawer_index : Nat
  player_order : List String
  round : Nat
  continue_ready : List String
  deriving DecidableEq, Repr

/-! ## Configuration (`config.py`) -/

def MIN_PLAYERS : Nat := 3
def MAX_PLAYERS : Nat := 80
def NUM_ROUNDS : Nat := 1

/-- `config.PLAYER_COLORS` (light, dark) hex pairs. -/
def PLAYER_COLORS : List (String × String) :=
  [("#FF6B6B", "#C92A2A"), ("#4DABF7", "#1864AB"), ("#51CF66", "#046113"),
   ("#FFD43B", "#F08C00"), ("#FF9F40", "#E67700"), ("#FF6BFF", "#C92AC9"),
   ("#FFA07A", "#ff4f00"), ("#66D9E8", "#0B7285")]

/-! ## Outbound events (socket emissions relevant to the claims) -/

/-- One option shown on a voting screen
(`{text, player_id, is_correct}` in `start_voting_for_current_drawing`). -/
structure VoteOption where
  text : String
  player_id : String
  correct : Bool
  deriving DecidableEq, Repr

/-- Socket events emitted by the handlers.  Events carrying a `dst` field
are sent to that player only; the rest are broadcasts.  Payload fields
not inspected by any claim are elided. -/
inductive Event where
  | duplicateGuess (dst : String)
  | emojiTaken (dst : String)
  | joined (dst : String) (colorIndex : Nat)
  | gameInProgress (dst : String)
  | updateLobby
  | showGuessingPhase
  | yourTurnGuess (dst : String) (drawingIndex : Nat)
  | waitMsg (dst : String)
  | showVotingPhase
  | yourTurnVote (dst : String) (options : List VoteOption) (artistId : String)
  | showCurrentScores (correctAnswer : String)
  | reset
  deriving DecidableEq, Repr

/-- Result of running a handler: `ok` for a normal return, `err` when an
uncaught Python exception (`IndexError`/`KeyError`) escapes.  Both carry
the game state and the events emitted up to that point (mutations made
before an exception persist, since the state is shared). -/
inductive HRes where
  | ok (st : GameState) (evs : List Event)
  | err (st : GameState) (evs : List Event)
  deriving DecidableEq, Repr

/-- The state after a handler ran (normally or not). -/
def HRes.state : HRes → GameState
  | .ok st _ => st
  | .err st _ => st

/-- The events a handler emitted. -/
def HRes.events : HRes → List Event
  | .ok _ evs => evs
  | .err _ evs => evs

/-- Did the handler finish without an exception? -/
def HRes.isOk : HRes → Bool
  | .ok _ _ => true
  | .err _ _ => false

/-! ## `game_state.py` methods -/

/-- `GameState.add_player`. -/
def add_player (st : GameState) (session_id name emoji : String) :
    Option (GameState × Player) :=
  if st.phase ≠ "lobby" then none
  else if MAX_PLAYERS ≤ st.players.length then none
  else
    let color_index := st.players.length % PLAYER_COLORS.length
    let p : Player := ⟨name, emoji, 0, 0, false, color_index, none⟩
    some ({ st with players := setD st.players session_id p }, p)

/-- `GameState.remove_player`. -/
def remove_player (st : GameState) (session_id : String) : GameState :=
  { st with
    players := delD st.players session_id
    continue_ready := st.continue_ready.erase session_id
    player_order := st.player_order.erase session_id }

/-- `GameState.all_drawings_complete`. -/
def all_drawings_complete (st : GameState) : Bool :=
  st.drawings.length == st.players.length

/-- `GameState.all_guesses_complete`. -/
def all_guesses_complete (st : GameState) : Bool :=
  match lookupD st.guesses st.current_drawing_index with
  | none => false
  | some gl => gl.length == st.players.length - 1

/-- `GameState.all_votes_complete`. -/
def all_votes_complete (st : GameState) : Bool :=
  match lookupD st.votes st.current_drawing_index with
  | none => false
  | some vl => vl.length == st.players.length

/-- The `# Award likes` inner loops of `calculate_scores_for_drawing`:
for every liked text, every guess whose text matches exactly has its
author's `likes` bumped (when the author is still in the roster). -/
def awardLikes (guesses : List Guess) (likes : List String)
    (players : List (String × Player)) : List (String × Player) :=
  likes.foldl
    (fun ps liked =>
      guesses.foldl
        (fun ps g =>
          if g.guess = liked then
            updD ps g.player_id (fun p => { p with likes := p.likes + 1 })
          else ps)
        ps)
    players

/-- The body of the `for vote_data in votes` loop of
`calculate_scores_for_drawing`, threading the mutated roster and the
accumulated `vote_details`. -/
def processVote (correct_answer artist_id : String) (guesses : List Guess)
    (acc : List (String × Player) × List VoteDetail) (v : Vote) :
    List (String × Player) × List VoteDetail :=
  let ps := awardLikes guesses v.likes acc.1
  match v.vote with
  | none => (ps, acc.2)
  | some c =>
    if c = "" then (ps, acc.2)
    else if pyLower c = pyLower correct_answer then
      let ps := updD ps v.player_id (fun p => { p with score := p.score + 1000 })
      let ps := updD ps artist_id (fun p => { p with score := p.score + 500 })
      let voter := match lookupD ps v.player_id with
        | some p => p.name
        | none => "Unknown"
      (ps, acc.2 ++ [⟨voter, c, true⟩])
    else
      let ps := match guesses.find?
          (fun g => !(g.guess == "") && (pyLower g.guess == pyLower c)) with
        | some g => updD ps g.player_id (fun p => { p with score := p.score + 500 })
        | none => ps
      let voter := match lookupD ps v.player_id with
        | some p => p.name
        | none => "Unknown"
      (ps, acc.2 ++ [⟨voter, c, false⟩])

/-- `GameState.calculate_scores_for_drawing`.  Returns the updated state
and `some` result dict, or the unchanged state and `none` when the index
is out of range (`return None`). -/
def calculate_scores_for_drawing (st : GameState) (drawing_index : Nat) :
    GameState × Option ScoreResult :=
  match st.drawings[drawing_index]? with
  | none => (st, none)
  | some drawing =>
    let correct_answer := drawing.prompt
    let artist_id := drawing.player_id
    let guesses := getD st.guesses drawing_index []
    let votes := getD st.votes drawing_index []
    let res := votes.foldl (processVote correct_answer artist_id guesses)
      (st.players, [])
    let ps := res.1
    let nameOf := fun pid => match lookupD ps pid with
      | some p => p.name
      | none => "Unknown"
    let guess_details := guesses.map (fun g => GuessDetail.mk (nameOf g.player_id) g.guess)
    ({ st with players := ps },
     some ⟨correct_answer, nameOf artist_id, res.2, guess_details, drawing.image⟩)

/-! ## `server.py` handlers

Timer objects live outside the game state; the claims below treat the
timer separately (`timer.py` model further down), so `start_*_timer` /
`stop_*_timer` calls do not appear in the state transitions.
`random.shuffle` of the voting options is modelled as the identity: the
claims only quantify over which options occur, never over their order. -/

/-- The per-recipient option list built in
`start_voting_for_current_drawing` (before the shuffle). -/
def optionsFor (current : Drawing) (guesses : List Guess) (pid : String) :
    List VoteOption :=
  if pid = current.player_id then
    ⟨current.prompt, current.player_id, true⟩ ::
      (guesses.filter (fun g => !(pyStrip g.guess == ""))).map
        (fun g => ⟨g.guess, g.player_id, false⟩)
  else
    ⟨current.prompt, current.player_id, true⟩ ::
      (guesses.filter
          (fun g => !(g.player_id == pid) && !(pyStrip g.guess == ""))).map
        (fun g => ⟨g.guess, g.player_id, false⟩)

/-- `start_voting_for_current_drawing`. -/
def start_voting (st : GameState) : HRes :=
  let st := { st with phase := "voting" }
  let i := st.current_drawing_index
  let st := if (lookupD st.votes i).isSome then st
    else { st with votes := setD st.votes i [] }
  match st.drawings[i]? with
  | none => .err st [.showVotingPhase]
  | some current =>
    match lookupD st.guesses i with
    | none => .err st [.showVotingPhase]
    | some guesses =>
      .ok st (.showVotingPhase ::
        st.players.map (fun e =>
          Event.yourTurnVote e.1 (optionsFor current guesses e.1)
            current.player_id))

/-- `start_guessing_for_current_drawing`. -/
def start_guessing (st : GameState) : HRes :=
  let st := { st with phase := "guessing" }
  let i := st.current_drawing_index
  let st := if (lookupD st.guesses i).isSome then st
    else { st with guesses := setD st.guesses i [] }
  match st.drawings[i]? with
  | none => .err st [.showGuessingPhase]
  | some current =>
    .ok st (.showGuessingPhase ::
      st.players.map (fun e =>
        if e.1 = current.player_id then Event.waitMsg e.1
        else Event.yourTurnGuess e.1 i))

/-- `show_current_scores`. -/
def show_current_scores (st : GameState) : HRes :=
  let i := st.current_drawing_index
  let r := calculate_scores_for_drawing st i
  match r.2 with
  | none => .ok r.1 []
  | some res =>
    match lookupD r.1.guesses i, lookupD r.1.votes i with
    | some _, some _ => .ok r.1 [.showCurrentScores res.correct_answer]
    | _, _ => .err r.1 []

/-- `handle_guess` (`submit_guess` event). -/
def handle_guess (st : GameState) (player_id rawGuess : String) : HRes :=
  let guess := pyStrip rawGuess
  let i := st.current_drawing_index
  match st.drawings[i]? with
  | none => .err st []
  | some current =>
    if pyLower guess = pyLower current.prompt then
      .ok st [.duplicateGuess player_id]
    else
      match lookupD st.guesses i with
      | none => .err st []
      | some gl =>
        if gl.any (fun g => pyLower guess == pyLower g.guess) then
          .ok st [.duplicateGuess player_id]
        else
          let gl' := if gl.any (fun g => g.player_id == player_id) then gl
            else gl ++ [⟨player_id, guess⟩]
          let st' := { st with guesses := setD st.guesses i gl' }
          if all_guesses_complete st' then start_voting st'
          else .ok st' []

/-- `handle_guess_time_up` (`guess_time_up` event). -/
def handle_guess_time_up (st : GameState) : HRes :=
  let i := st.current_drawing_index
  if st.drawings.length ≤ i then .ok st []
  else
    match st.drawings[i]? with
    | none => .ok st []
    | some current =>
      match lookupD st.guesses i with
      | none => .err st []
      | some gl =>
        let guessed := gl.map (fun g => g.player_id)
        let missing := (st.players.map (fun e => e.1)).filter
          (fun pid => !(pid == current.player_id) && !(guessed.contains pid))
        let gl' := gl ++ missing.map (fun pid => Guess.mk pid "")
        let st' := { st with guesses := setD st.guesses i gl' }
        start_voting st'

/-- `handle_vote` (`submit_vote` event). -/
def handle_vote (st : GameState) (player_id rawVote : String)
    (likes : List String) : HRes :=
  let vote := pyStrip rawVote
  let i := st.current_drawing_index
  match lookupD st.votes i with
  | none => .err st []
  | some vl =>
    let vl' := if vl.any (fun v => v.player_id == player_id) then vl
      else vl ++ [⟨player_id, some vote, likes⟩]
    let st' := { st with votes := setD st.votes i vl' }
    if all_votes_complete st' then show_current_scores st'
    else .ok st' []

/-- `handle_likes_only` (`submit_likes_only` event). -/
def handle_likes_only (st : GameState) (player_id : String)
    (likes : List String) : HRes :=
  let i := st.current_drawing_index
  match lookupD st.votes i with
  | none => .err st []
  | some vl =>
    let vl' := if vl.any (fun v => v.player_id == player_id) then vl
      else vl ++ [⟨player_id, none, likes⟩]
    let st' := { st with votes := setD st.votes i vl' }
    if all_votes_complete st' then show_current_scores st'
    else .ok st' []

/-- The loop body of `vote_time_up`: append an empty vote for roster
entry `e` unless a vote by that player is already recorded. -/
def fillVote (acc : List Vote) (e : String × Player) : List Vote :=
  if acc.any (fun v => v.player_id == e.1) then acc
  else acc ++ [⟨e.1, some "", []⟩]

/-- `vote_time_up` (voting-timer expiry): auto-fill an empty vote for
every roster player without one, then show scores. -/
def vote_time_up (st : GameState) : HRes :=
  let i := st.current_drawing_index
  match lookupD st.votes i with
  | none => .err st []
  | some vl =>
    let vl' := st.players.foldl fillVote vl
    let st' := { st with votes := setD st.votes i vl' }
    show_current_scores st'

/-- `handle_join` (`join` event).  Cannot raise. -/
def handle_join (st : GameState) (player_id rawName emoji : String) :
    GameState × List Event :=
  let name := pyStrip rawName
  if st.players.any (fun e => !(e.1 == player_id) && (e.2.emoji == emoji)) then
    (st, [.emojiTaken player_id])
  else
    match st.players.find?
        (fun e => (pyLower e.2.name == pyLower name) && !(e.1 == player_id)) with
    | some entry =>
      if st.players.any (fun e =>
          !(e.1 == entry.1) && !(e.1 == player_id) && (e.2.emoji == emoji)) then
        (st, [.emojiTaken player_id])
      else
        let players := setD st.players player_id { entry.2 with emoji := emoji }
        let players := delD players entry.1
        ({ st with players := players }, [.joined player_id entry.2.color_index])
    | none =>
      match add_player st player_id name emoji with
      | none => (st, [.gameInProgress player_id])
      | some (st', p) =>
        (st', [.joined player_id p.color_index, .updateLobby])

/-- `handle_disconnect` (`disconnect` event). -/
def handle_disconnect (st : GameState) (player_id : String) : HRes :=
  let st := remove_player st player_id
  if st.phase = "lobby" then .ok st [.updateLobby]
  else if st.phase = "drawing" then
    if all_drawings_complete st then
      start_guessing { st with current_drawing_index := 0 }
    else .ok st []
  else if st.phase = "guessing" then
    if all_guesses_complete st then start_voting st else .ok st []
  else if st.phase = "voting" then
    if all_votes_complete st then show_current_scores st else .ok st []
  else .ok st []

/-- `handle_play_again` (`play_again` event). -/
def handle_play_again (st : GameState) : GameState × List Event :=
  ({ st with
      players := st.players.map
        (fun e => (e.1, { e.2 with score := 0, likes := 0 }))
      phase := "lobby"
      drawings := []
      guesses := []
      votes := []
      round := 0
      current_drawing_index := 0
      current_drawer_index := 0
      player_order := []
      continue_ready := [] },
   [.reset, .updateLobby])

/-! ## `timer.py`

The countdown thread is modelled as a sequential small-step loop:
`loopIter` is one pass of the `while self.active and self.time_remaining
> 0` body (emit the tick, sleep, decrement), `countLoop` runs the loop
to exhaustion, and `epilogue` is the trailing `if self.active and
self.time_remaining <= 0` block that fires `on_expire` and deactivates.
`add_time` may be interleaved between loop iterations; the claim's
scenario is a run of `j` iterations, one `add_time`, then the rest. -/

/-- The mutable fields of a `Timer`. -/
structure TimerState where
  duration : Nat
  time_remaining : Nat
  active : Bool
  deriving DecidableEq, Repr

/-- `Timer.start` (the spawned thread is the loop below). -/
def Timer.start (t : TimerState) : TimerState :=
  { t with time_remaining := t.duration, active := true }

/-- `Timer.stop`. -/
def Timer.stop (t : TimerState) : TimerState :=
  { t with active := false }

/-- `Timer.add_time`. -/
def Timer.add_time (t : TimerState) (seconds : Nat) : TimerState :=
  if t.active then { t with time_remaining := t.time_remaining + seconds }
  else t

/-- One iteration of the countdown loop: when the guard holds, the tick
value emitted and the state after the decrement. -/
def loopIter (t : TimerState) : Option (Nat × TimerState) :=
  if t.active ∧ 0 < t.time_remaining then
    some (t.time_remaining, { t with time_remaining := t.time_remaining - 1 })
  else none

/-- Run `j` loop iterations (stopping early if the guard fails),
collecting the ticks emitted. -/
def runIters : Nat → TimerState → List Nat × TimerState
  | 0, t => ([], t)
  | j + 1, t =>
    match loopIter t with
    | none => ([], t)
    | some (tick, t') =>
      let r := runIters j t'
      (tick :: r.1, r.2)

/-- Run the countdown loop to exhaustion. -/
def countLoop (t : TimerState) : List Nat × TimerState :=
  if _h : t.active ∧ 0 < t.time_remaining then
    let r := countLoop { t with time_remaining := t.time_remaining - 1 }
    (t.time_remaining :: r.1, r.2)
  else ([], t)
termination_by t.time_remaining
decreasing_by omega

/-- The code after the loop: fire `on_expire` (the returned Bool) and
deactivate, when the timer is still active with no time left. -/
def epilogue (t : TimerState) : Bool × TimerState :=
  if t.active ∧ t.time_remaining ≤ 0 then (true, { t with active := false })
  else (false, t)

/-! ## Spec-side definitions (for refinement statements) -/

/-- The spec's scoring rule for one vote, as §4.3 words it: a choice
that case-insensitively equals the real prompt gives the voter 1000 and
the artist 500; otherwise a choice equal to some recorded (non-empty)
guess gives that guess's author 500 and the voter 0.  Returns the award
for player `pid`. -/
def voteAwardSpec (correct_answer artist_id : String) (guesses : List Guess)
    (pid : String) (v : Vote) : Nat :=
  match v.vote with
  | none => 0
  | some c =>
    if pyLower c = pyLower correct_answer then
      (if v.player_id = pid then 1000 else 0) + (if artist_id = pid then 500 else 0)
    else
      match guesses.find?
          (fun g => !(g.guess == "") && (pyLower g.guess == pyLower c)) with
      | some g => if g.player_id = pid then 500 else 0
      | none => 0

/-- The code's per-vote score award (identical to `voteAwardSpec` except
that a falsy — empty — choice is skipped unconditionally). -/
def voteAwardCode (correct_answer artist_id : String) (guesses : List Guess)
    (pid : String) (v : Vote) : Nat :=
  match v.vote with
  | none => 0
  | some c =>
    if c = "" then 0
    else if pyLower c = pyLower correct_answer then
      (if v.player_id = pid then 1000 else 0) + (if artist_id = pid then 500 else 0)
    else
      match guesses.find?
          (fun g => !(g.guess == "") && (pyLower g.guess == pyLower c)) with
      | some g => if g.player_id = pid then 500 else 0
      | none => 0

/-- The spec's like rule for one vote: every liked text increments the
likes of each author of an exactly-matching guess, independent of the
vote's choice.  Returns the increment for player `pid`. -/
def likeAwardSpec (guesses : List Guess) (pid : String) (v : Vote) : Nat :=
  (v.likes.map (fun liked =>
    guesses.countP (fun g => (g.guess == liked) && (g.player_id == pid)))).sum

/-- `[n, n-1, ..., 1]` — the tick values of an uninterrupted countdown. -/
def descList : Nat → List Nat
  | 0 => []
  | n + 1 => (n + 1) :: descList n

/-! ## Dictionary lemmas -/

theorem lookupD_setD_self {κ α : Type} [DecidableEq κ]
    (d : List (κ × α)) (k : κ) (v : α) : lookupD (setD d k v) k = some v := by
  induction d with
  | nil => simp [setD, lookupD]
  | cons e r ih =>
    by_cases h : e.1 = k
    · simp [setD, lookupD, h]
    · simpa [setD, lookupD, h] using ih

theorem lookupD_setD_ne {κ α : Type} [DecidableEq κ]
    (d : List (κ × α)) (k k' : κ) (v : α) (h : k ≠ k') :
    lookupD (setD d k v) k' = lookupD d k' := by
  induction d with
  | nil => simp [setD, lookupD, h]
  | cons e r ih =>
    by_cases he : e.1 = k
    · simp [setD, lookupD, he, h]
    · simp only [setD, lookupD, if_neg he]
      by_cases he' : e.1 = k'
      · simp [he']
      · simp [he', ih]

theorem setD_self {κ α : Type} [DecidableEq κ]
    (d : List (κ × α)) (k : κ) (v : α) (h : lookupD d k = some v) :
    setD d k v = d := by
  induction d with
  | nil => simp [lookupD] at h
  | cons e r ih =>
    by_cases he : e.1 = k
    · simp only [lookupD, if_pos he] at h
      cases e
      simp_all [setD]
    · simp only [lookupD, if_neg he] at h
      simp [setD, he, ih h]

theorem lookupD_updD_self {κ α : Type} [DecidableEq κ]
    (d : List (κ × α)) (k : κ) (f : α → α) :
    lookupD (updD d k f) k = (lookupD d k).map f := by
  induction d with
  | nil => simp [updD, lookupD]
  | cons e r ih =>
    by_cases he : e.1 = k
    · simp [updD, lookupD, he]
    · simp [updD, lookupD, he, ih]

theorem lookupD_updD_ne {κ α : Type} [DecidableEq κ]
    (d : List (κ × α)) (k k' : κ) (f : α → α) (h : k ≠ k') :
    lookupD (updD d k f) k' = lookupD d k' := by
  induction d with
  | nil => simp [updD, lookupD]
  | cons e r ih =>
    by_cases he : e.1 = k
    · simp [updD, lookupD, he, h, Ne.symm h]
    · simp only [updD, lookupD, if_neg he]
      by_cases he' : e.1 = k'
      · simp [he']
      · simp [he', ih]

theorem lookupD_map_value {κ α β : Type} [DecidableEq κ]
    (d : List (κ × α)) (f : α → β) (k : κ) :
    lookupD (d.map (fun e => (e.1, f e.2))) k = (lookupD d k).map f := by
  induction d with
  | nil => simp [lookupD]
  | cons e r ih =>
    by_cases he : e.1 = k
    · simp [lookupD, he]
    · simp [lookupD, he, ih]

theorem lookupD_reset_scores (d : List (String × Player)) (k : String) :
    lookupD (d.map (fun e => (e.1, { e.2 with score := 0, likes := 0 }))) k
      = (lookupD d k).map (fun p => { p with score := 0, likes := 0 }) := by
  induction d with
  | nil => simp [lookupD]
  | cons e r ih =>
    by_cases he : e.1 = k
    · simp [lookupD, he]
    · simp [lookupD, he, ih]

/-! ## Claim C9: playAgain resets mutable state, keeps identities -/

/-- C9: handling `playAgain` sets the phase to lobby, clears drawings,
guesses, votes, round number, drawing index and the continue-ready set,
zeroes every player's score and likes, and leaves the set of player ids
and each player's name, emoji and color assignment unchanged. -/
theorem play_again_resets_state (st : GameState) :
    (handle_play_again st).1.phase = "lobby" ∧
    (handle_play_again st).1.drawings = [] ∧
    (handle_play_again st).1.guesses = [] ∧
    (handle_play_again st).1.votes = [] ∧
    (handle_play_again st).1.round = 0 ∧
    (handle_play_again st).1.current_drawing_index = 0 ∧
    (handle_play_again st).1.continue_ready = [] ∧
    (handle_play_again st).1.players.map Prod.fst = st.players.map Prod.fst ∧
    ∀ pid p, lookupD st.players pid = some p →
      lookupD (handle_play_again st).1.players pid =
        some ⟨p.name, p.emoji, 0, 0, p.ready, p.color_index, p.prompt⟩ := by
  refine ⟨rfl, rfl, rfl, rfl, rfl, rfl, rfl, ?_, ?_⟩
  · simp [handle_play_again]
  · intro pid p h
    simp only [handle_play_again]
    rw [lookupD_reset_scores, h]
    rfl

/-- Witness for C9 at a concrete two-player state. -/
theorem play_again_resets_state_witness :
    lookupD
      (handle_play_again
        ⟨"final",
         [("s1", ⟨"Ann", "e1", 1500, 2, true, 0, some "flying cat"⟩),
          ("s2", ⟨"Bob", "e2", 500, 0, false, 1, some "red barn"⟩)],
         [⟨"s1", "flying cat", "img"⟩], [(0, [])], [(0, [])],
         1, 1, ["s1", "s2"], 1, ["s1"]⟩).1.players "s1"
      = some ⟨"Ann", "e1", 0, 0, true, 0, some "flying cat"⟩ :=
  (play_again_resets_state _).2.2.2.2.2.2.2.2 "s1"
    ⟨"Ann", "e1", 1500, 2, true, 0, some "flying cat"⟩ rfl

/-! ## Claim C3: timer tick/expiry behaviour -/

theorem descList_length (n : Nat) : (descList n).length = n := by
  induction n with
  | zero => rfl
  | succ n ih => simp [descList, ih]

theorem runIters_spec (j : Nat) :
    ∀ t : TimerState, t.active = true → j ≤ t.time_remaining →
      runIters j t = ((descList t.time_remaining).take j,
        { t with time_remaining := t.time_remaining - j }) := by
  induction j with
  | zero => intro t _ _; simp [runIters]
  | succ j ih =>
    intro t ha hj
    obtain ⟨m, hm⟩ : ∃ m, t.time_remaining = m + 1 := by
      cases h : t.time_remaining with
      | zero => omega
      | succ m => exact ⟨m, rfl⟩
    have hguard : t.active ∧ 0 < t.time_remaining := ⟨ha, by omega⟩
    simp only [runIters, loopIter, if_pos hguard]
    rw [ih { t with time_remaining := t.time_remaining - 1 } ha (by simp; omega)]
    simp [hm, descList, List.take_succ_cons]

theorem countLoop_spec_aux (n : Nat) :
    ∀ t : TimerState, t.active = true → t.time_remaining = n →
      countLoop t = (descList n, { t with time_remaining := 0 }) := by
  induction n with
  | zero =>
    intro t ha hn
    unfold countLoop
    rw [dif_neg (by omega)]
    simp [descList, ← hn]
  | succ m ih =>
    intro t ha hn
    unfold countLoop
    rw [dif_pos ⟨ha, by omega⟩]
    rw [ih { t with time_remaining := t.time_remaining - 1 } (by simpa) (by simp [hn])]
    simp [descList, hn]

theorem countLoop_spec (t : TimerState) (ha : t.active = true) :
    countLoop t = (descList t.time_remaining, { t with time_remaining := 0 }) :=
  countLoop_spec_aux t.time_remaining t ha rfl

/-- C3: starting a timer of duration `d ≥ 1`, running `j < d` loop
iterations, calling `add_time k` once, then letting the countdown run
out, ticks with the values `d, …, d−j+1` followed by `d−j+k, …, 1` —
`d + k` ticks in total — after which `on_expire` fires (returned flag
`true`, exactly once by construction) and the timer deactivates; and
`add_time` on an inactive timer changes nothing. -/
theorem timer_add_time_ticks (d k j : Nat) (_hd : 1 ≤ d) (hj : j < d) :
    ((runIters j (Timer.start ⟨d, 0, false⟩)).1 ++
        (countLoop (Timer.add_time (runIters j (Timer.start ⟨d, 0, false⟩)).2 k)).1
      = (descList d).take j ++ descList (d - j + k)) ∧
    ((runIters j (Timer.start ⟨d, 0, false⟩)).1 ++
        (countLoop (Timer.add_time (runIters j (Timer.start ⟨d, 0, false⟩)).2 k)).1).length
      = d + k ∧
    (epilogue (countLoop
        (Timer.add_time (runIters j (Timer.start ⟨d, 0, false⟩)).2 k)).2).1 = true ∧
    (epilogue (countLoop
        (Timer.add_time (runIters j (Timer.start ⟨d, 0, false⟩)).2 k)).2).2.active = false ∧
    (∀ t : TimerState, t.active = false → Timer.add_time t k = t) := by
  have h1 : runIters j (Timer.start ⟨d, 0, false⟩)
      = ((descList d).take j, ⟨d, d - j, true⟩) := by
    rw [show Timer.start ⟨d, 0, false⟩ = (⟨d, d, true⟩ : TimerState) from rfl]
    rw [runIters_spec j ⟨d, d, true⟩ rfl (by simp; omega)]
  have h2 : Timer.add_time ⟨d, d - j, true⟩ k = (⟨d, d - j + k, true⟩ : TimerState) := rfl
  have h3 : countLoop ⟨d, d - j + k, true⟩
      = (descList (d - j + k), (⟨d, 0, true⟩ : TimerState)) := by
    rw [countLoop_spec ⟨d, d - j + k, true⟩ rfl]
  have h4 : epilogue ⟨d, 0, true⟩ = (true, (⟨d, 0, false⟩ : TimerState)) := by
    simp [epilogue]
  rw [h1]
  simp only [h2, h3, h4]
  refine ⟨trivial, ?_, trivial, trivial, ?_⟩
  · simp only [List.length_append, List.length_take, descList_length]
    omega
  · intro t ht
    simp [Timer.add_time, ht]

/-- Witness for C3 at `d = 3`, `k = 2`, `j = 1`. -/
theorem timer_add_time_ticks_witness :
    (1 ≤ 3 ∧ 1 < 3) ∧
    ((runIters 1 (Timer.start ⟨3, 0, false⟩)).1 ++
        (countLoop (Timer.add_time (runIters 1 (Timer.start ⟨3, 0, false⟩)).2 2)).1).length
      = 3 + 2 :=
  ⟨by decide, (timer_add_time_ticks 3 2 1 (by decide) (by decide)).2.1⟩

/-! ## Claim C2: submitting the real prompt is always rejected -/

/-- C2: a `submitGuess` whose text case-insensitively equals the current
drawing's real prompt (in any letter-casing) makes the handler emit
`duplicateGuess` to the sender and store nothing — the returned state is
the input state, for any stripped prompt (prompts are stripped on load). -/
theorem guess_equal_to_prompt_rejected (st : GameState) (pid raw : String)
    (current : Drawing)
    (hdraw : st.drawings[st.current_drawing_index]? = some current)
    (hprompt : pyStrip current.prompt = current.prompt)
    (hlow : pyLower raw = pyLower current.prompt) :
    handle_guess st pid raw = .ok st [.duplicateGuess pid] := by
  have hmatch : pyLower (pyStrip raw) = pyLower current.prompt := by
    calc pyLower (pyStrip raw) = pyStrip (pyLower raw) := (pyStrip_pyLower raw).symm
    _ = pyStrip (pyLower current.prompt) := by rw [hlow]
    _ = pyLower (pyStrip current.prompt) := pyStrip_pyLower current.prompt
    _ = pyLower current.prompt := by rw [hprompt]
  simp only [handle_guess, hdraw, hmatch, if_pos]

/-- Witness for C2: prompt `"Flying Cat"`, submission `"fLYING cAT"`. -/
theorem guess_equal_to_prompt_rejected_witness :
    handle_guess
      ⟨"guessing", [("a", ⟨"Ann", "e1", 0, 0, false, 0, some "Flying Cat"⟩)],
       [⟨"a", "Flying Cat", "img"⟩], [(0, [])], [], 0, 0, [], 1, []⟩
      "b" "fLYING cAT"
      = .ok
        ⟨"guessing", [("a", ⟨"Ann", "e1", 0, 0, false, 0, some "Flying Cat"⟩)],
         [⟨"a", "Flying Cat", "img"⟩], [(0, [])], [], 0, 0, [], 1, []⟩
        [.duplicateGuess "b"] :=
  guess_equal_to_prompt_rejected _ "b" "fLYING cAT" ⟨"a", "Flying Cat", "img"⟩
    rfl (by decide) (by decide)

/-! ## Claim C7: out-of-range drawing index -/

/-- Amended C7: scoring a drawing and guess-timer expiry detect an
out-of-range current index and are no-ops, but `handle_guess` has no
such guard and an out-of-range index raises an uncaught `IndexError`
(modelled as `.err`) before any mutation. -/
theorem index_out_of_range_guards :
    (∀ st i, st.drawings.length ≤ i →
      calculate_scores_for_drawing st i = (st, none)) ∧
    (∀ st, st.drawings.length ≤ st.current_drawing_index →
      handle_guess_time_up st = .ok st []) ∧
    (∀ st pid raw, st.drawings.length ≤ st.current_drawing_index →
      handle_guess st pid raw = .err st []) := by
  refine ⟨?_, ?_, ?_⟩
  · intro st i h
    have : st.drawings[i]? = none := by
      rw [List.getElem?_eq_none_iff]
      omega
    simp [calculate_scores_for_drawing, this]
  · intro st h
    simp [handle_guess_time_up, if_pos h]
  · intro st pid raw h
    have : st.drawings[st.current_drawing_index]? = none := by
      rw [List.getElem?_eq_none_iff]
      omega
    simp [handle_guess, this]

/-- Witness for the amended C7 at a concrete lobby state. -/
theorem index_out_of_range_guards_witness :
    calculate_scores_for_drawing
        ⟨"lobby", [], [], [], [], 0, 0, [], 0, []⟩ 0
      = (⟨"lobby", [], [], [], [], 0, 0, [], 0, []⟩, none) ∧
    handle_guess_time_up ⟨"lobby", [], [], [], [], 0, 0, [], 0, []⟩
      = .ok ⟨"lobby", [], [], [], [], 0, 0, [], 0, []⟩ [] ∧
    handle_guess ⟨"lobby", [], [], [], [], 0, 0, [], 0, []⟩ "p1" "x"
      = .err ⟨"lobby", [], [], [], [], 0, 0, [], 0, []⟩ [] :=
  ⟨index_out_of_range_guards.1 ⟨"lobby", [], [], [], [], 0, 0, [], 0, []⟩ 0
      (by decide),
   index_out_of_range_guards.2.1 ⟨"lobby", [], [], [], [], 0, 0, [], 0, []⟩
      (by decide),
   index_out_of_range_guards.2.2 ⟨"lobby", [], [], [], [], 0, 0, [], 0, []⟩
      "p1" "x" (by decide)⟩

/-- Counterexample to C7 as stated: in the lobby (no drawings, index 0)
a `submitGuess` is not a detected no-op — it raises an uncaught
`IndexError` at `game_state.drawings[current_idx]`. -/
theorem guess_crashes_on_stale_index :
    handle_guess ⟨"lobby", [("p1", ⟨"Ann", "e1", 0, 0, false, 0, none⟩)],
        [], [], [], 0, 0, [], 0, []⟩ "p1" "cat"
      = .err ⟨"lobby", [("p1", ⟨"Ann", "e1", 0, 0, false, 0, none⟩)],
        [], [], [], 0, 0, [], 0, []⟩ [] := by
  rfl

/-! ## State-preservation helper lemmas -/

theorem pyLower_empty : pyLower "" = "" := rfl

theorem HRes.state_ok (st : GameState) (evs : List Event) :
    (HRes.ok st evs).state = st := rfl

theorem HRes.state_err (st : GameState) (evs : List Event) :
    (HRes.err st evs).state = st := rfl

theorem start_voting_guesses (st : GameState) :
    (start_voting st).state.guesses = st.guesses := by
  simp only [start_voting]
  repeat' split
  all_goals simp [HRes.state_ok, HRes.state_err]

theorem calculate_scores_votes (st : GameState) (i : Nat) :
    (calculate_scores_for_drawing st i).1.votes = st.votes := by
  unfold calculate_scores_for_drawing
  split <;> simp

theorem calculate_scores_guesses (st : GameState) (i : Nat) :
    (calculate_scores_for_drawing st i).1.guesses = st.guesses := by
  unfold calculate_scores_for_drawing
  split <;> simp

theorem show_current_scores_votes (st : GameState) :
    (show_current_scores st).state.votes = st.votes := by
  have h := calculate_scores_votes st st.current_drawing_index
  simp only [show_current_scores]
  repeat' split
  all_goals simpa [HRes.state_ok, HRes.state_err] using h

/-! ## Claim C6: explicitly submitted blank guesses -/

/-- Amended C6: an explicitly submitted blank guess (text empty after
stripping) from a player who has not yet guessed is NOT rejected — it is
stored as an empty-string `Guess` (when no empty guess exists yet for
the drawing and the prompt is non-empty); empty-string guesses also
enter through the timeout auto-fill, one per missing non-artist player. -/
theorem blank_guess_stored_not_rejected :
    (∀ st pid raw current gl,
      pyStrip raw = "" →
      st.drawings[st.current_drawing_index]? = some current →
      current.prompt ≠ "" →
      lookupD st.guesses st.current_drawing_index = some gl →
      (∀ g ∈ gl, g.guess ≠ "") →
      gl.any (fun g => g.player_id == pid) = false →
      lookupD (handle_guess st pid raw).state.guesses st.current_drawing_index
        = some (gl ++ [⟨pid, ""⟩])) ∧
    (∀ st current gl,
      st.drawings[st.current_drawing_index]? = some current →
      lookupD st.guesses st.current_drawing_index = some gl →
      lookupD (handle_guess_time_up st).state.guesses st.current_drawing_index
        = some (gl ++
            (((st.players.map Prod.fst).filter
              (fun q => !(q == current.player_id) &&
                !((gl.map (fun g => g.player_id)).contains q))).map
              (fun q => Guess.mk q "")))) := by
  constructor
  · intro st pid raw current gl hblank hdraw hprompt hgl hne hnotyet
    have hc1 : ¬ pyLower "" = pyLower current.prompt := by
      rw [pyLower_empty]
      intro h
      exact hprompt ((pyLower_eq_empty_iff current.prompt).mp h.symm)
    have hc2 : (gl.any fun g => pyLower "" == pyLower g.guess) = false := by
      rw [pyLower_empty, List.any_eq_false]
      intro g hg
      simp only [beq_iff_eq]
      intro h
      exact hne g hg ((pyLower_eq_empty_iff g.guess).mp h.symm)
    simp only [handle_guess, hdraw, hblank]
    rw [if_neg hc1]
    simp only [hgl, hc2, Bool.false_eq_true, if_false, hnotyet]
    split
    · rw [start_voting_guesses]
      simp [lookupD_setD_self]
    · simp [HRes.state_ok, lookupD_setD_self]
  · intro st current gl hdraw hgl
    have hlt : st.current_drawing_index < st.drawings.length := by
      by_contra h
      rw [List.getElem?_eq_none_iff.mpr (by omega)] at hdraw
      exact Option.noConfusion hdraw
    simp only [handle_guess_time_up,
      if_neg (by omega : ¬ st.drawings.length ≤ st.current_drawing_index),
      hdraw, hgl]
    rw [start_voting_guesses]
    simp [lookupD_setD_self]

/-- Witness for the amended C6: player `b` submits `"   "` in a fresh
guessing phase; the empty guess is stored. -/
theorem blank_guess_stored_not_rejected_witness :
    lookupD (handle_guess
      ⟨"guessing",
       [("a", ⟨"Ann", "e1", 0, 0, false, 0, some "flying cat"⟩),
        ("b", ⟨"Bob", "e2", 0, 0, false, 1, none⟩),
        ("c", ⟨"Cid", "e3", 0, 0, false, 2, none⟩)],
       [⟨"a", "flying cat", "img"⟩], [(0, [])], [], 0, 0, [], 1, []⟩
      "b" "   ").state.guesses 0 = some [⟨"b", ""⟩] ∧
    lookupD (handle_guess_time_up
      ⟨"guessing",
       [("a", ⟨"Ann", "e1", 0, 0, false, 0, some "flying cat"⟩),
        ("b", ⟨"Bob", "e2", 0, 0, false, 1, none⟩),
        ("c", ⟨"Cid", "e3", 0, 0, false, 2, none⟩)],
       [⟨"a", "flying cat", "img"⟩], [(0, [])], [], 0, 0, [], 1, []⟩).state.guesses 0
      = some [⟨"b", ""⟩, ⟨"c", ""⟩] :=
  ⟨blank_guess_stored_not_rejected.1 _ "b" "   " ⟨"a", "flying cat", "img"⟩ []
      (by decide) rfl (by decide) rfl (by intro g hg; cases hg) (by decide),
   (blank_guess_stored_not_rejected.2
      ⟨"guessing",
       [("a", ⟨"Ann", "e1", 0, 0, false, 0, some "flying cat"⟩),
        ("b", ⟨"Bob", "e2", 0, 0, false, 1, none⟩),
        ("c", ⟨"Cid", "e3", 0, 0, false, 2, none⟩)],
       [⟨"a", "flying cat", "img"⟩], [(0, [])], [], 0, 0, [], 1, []⟩
      ⟨"a", "flying cat", "img"⟩ [] rfl rfl).trans (by decide)⟩

/-- Counterexample to C6 as stated: the explicit blank submission above
returns `.ok` with the empty-string guess stored — it is not rejected,
and the guess set for the drawing changes. -/
theorem blank_guess_not_rejected_cex :
    (handle_guess
      ⟨"guessing",
       [("a", ⟨"Ann", "e1", 0, 0, false, 0, some "flying cat"⟩),
        ("b", ⟨"Bob", "e2", 0, 0, false, 1, none⟩),
        ("c", ⟨"Cid", "e3", 0, 0, false, 2, none⟩)],
       [⟨"a", "flying cat", "img"⟩], [(0, [])], [], 0, 0, [], 1, []⟩
      "b" "   ")
      = .ok
        ⟨"guessing",
         [("a", ⟨"Ann", "e1", 0, 0, false, 0, some "flying cat"⟩),
          ("b", ⟨"Bob", "e2", 0, 0, false, 1, none⟩),
          ("c", ⟨"Cid", "e3", 0, 0, false, 2, none⟩)],
         [⟨"a", "flying cat", "img"⟩], [(0, [⟨"b", ""⟩])], [], 0, 0, [], 1, []⟩
        [] := by
  rfl

/-! ## Claim C10: voting option sets -/

/-- C10: when voting starts, every recipient's option list contains the
real prompt, every other entry comes from a recorded guess that is
non-empty after stripping (so timeout auto-fill guesses never appear),
a non-artist recipient never sees their own guess, the artist sees every
strip-non-empty guess, and `start_voting` sends each roster player
exactly their `optionsFor` list. -/
theorem voting_options_spec :
    (∀ current guesses pid,
      (⟨current.prompt, current.player_id, true⟩ : VoteOption)
          ∈ optionsFor current guesses pid ∧
      (∀ o ∈ optionsFor current guesses pid,
        o = ⟨current.prompt, current.player_id, true⟩ ∨
        ∃ g ∈ guesses, o = ⟨g.guess, g.player_id, false⟩ ∧
          ¬ pyStrip g.guess = "" ∧
          (pid ≠ current.player_id → g.player_id ≠ pid)) ∧
      (∀ g ∈ guesses, ¬ pyStrip g.guess = "" →
        (pid = current.player_id ∨ g.player_id ≠ pid) →
        (⟨g.guess, g.player_id, false⟩ : VoteOption)
          ∈ optionsFor current guesses pid)) ∧
    (∀ st current guesses,
      st.drawings[st.current_drawing_index]? = some current →
      lookupD st.guesses st.current_drawing_index = some guesses →
      ∀ e ∈ st.players,
        Event.yourTurnVote e.1 (optionsFor current guesses e.1)
            current.player_id
          ∈ (start_voting st).events) := by
  constructor
  · intro current guesses pid
    refine ⟨?_, ?_, ?_⟩
    · by_cases h : pid = current.player_id <;>
        simp [optionsFor, h]
    · intro o ho
      by_cases h : pid = current.player_id
      · simp only [optionsFor, if_pos h, List.mem_cons, List.mem_map,
          List.mem_filter] at ho
        rcases ho with ho | ⟨g, ⟨hg, hgn⟩, rfl⟩
        · exact Or.inl ho
        · refine Or.inr ⟨g, hg, rfl, ?_, fun hne => absurd h hne⟩
          simpa using hgn
      · simp only [optionsFor, if_neg h, List.mem_cons, List.mem_map,
          List.mem_filter] at ho
        rcases ho with ho | ⟨g, ⟨hg, hgn⟩, rfl⟩
        · exact Or.inl ho
        · simp only [Bool.and_eq_true, Bool.not_eq_true', beq_eq_false_iff_ne,
            ne_eq] at hgn
          exact Or.inr ⟨g, hg, rfl, by simpa using hgn.2, fun _ => hgn.1⟩
    · intro g hg hgn hown
      by_cases h : pid = current.player_id
      · simp only [optionsFor, if_pos h, List.mem_cons, List.mem_map,
          List.mem_filter]
        exact Or.inr ⟨g, ⟨hg, by simpa using hgn⟩, rfl⟩
      · rcases hown with hown | hown
        · exact absurd hown h
        · simp only [optionsFor, if_neg h, List.mem_cons, List.mem_map,
            List.mem_filter]
          refine Or.inr ⟨g, ⟨hg, ?_⟩, rfl⟩
          simp only [Bool.and_eq_true, Bool.not_eq_true', beq_eq_false_iff_ne,
            ne_eq]
          exact ⟨hown, by simpa using hgn⟩
  · intro st current guesses hdraw hgl e he
    by_cases hv : (lookupD st.votes st.current_drawing_index).isSome
    · simp only [start_voting, hv, ite_true, hdraw, hgl, HRes.events]
      exact List.mem_cons_of_mem _ (List.mem_map_of_mem _ he)
    · simp only [start_voting, hv, Bool.false_eq_true, ite_false, hdraw, hgl,
        HRes.events]
      exact List.mem_cons_of_mem _ (List.mem_map_of_mem _ he)

/-- Witness for C10: concrete drawing with a real guess, an empty
(auto-filled) guess and the recipient's own guess. -/
theorem voting_options_spec_witness :
    (⟨"flying cat", "a", true⟩ : VoteOption)
        ∈ optionsFor ⟨"a", "flying cat", "img"⟩
          [⟨"b", "cat with wings"⟩, ⟨"c", ""⟩, ⟨"d", "superman"⟩] "b" ∧
    optionsFor ⟨"a", "flying cat", "img"⟩
        [⟨"b", "cat with wings"⟩, ⟨"c", ""⟩, ⟨"d", "superman"⟩] "b"
      = [⟨"flying cat", "a", true⟩, ⟨"superman", "d", false⟩] ∧
    Event.yourTurnVote "b"
        (optionsFor ⟨"a", "flying cat", "img"⟩ [⟨"b", "cat with wings"⟩] "b") "a"
      ∈ (start_voting
          ⟨"guessing",
           [("a", ⟨"A", "e1", 0, 0, false, 0, some "flying cat"⟩),
            ("b", ⟨"B", "e2", 0, 0, false, 1, none⟩)],
           [⟨"a", "flying cat", "img"⟩], [(0, [⟨"b", "cat with wings"⟩])],
           [], 0, 0, [], 1, []⟩).events :=
  ⟨(voting_options_spec.1 ⟨"a", "flying cat", "img"⟩
      [⟨"b", "cat with wings"⟩, ⟨"c", ""⟩, ⟨"d", "superman"⟩] "b").1,
   by decide,
   voting_options_spec.2
     ⟨"guessing",
      [("a", ⟨"A", "e1", 0, 0, false, 0, some "flying cat"⟩),
       ("b", ⟨"B", "e2", 0, 0, false, 1, none⟩)],
      [⟨"a", "flying cat", "img"⟩], [(0, [⟨"b", "cat with wings"⟩])],
      [], 0, 0, [], 1, []⟩
     ⟨"a", "flying cat", "img"⟩ [⟨"b", "cat with wings"⟩] rfl rfl
     ("b", ⟨"B", "e2", 0, 0, false, 1, none⟩) (by decide)⟩

/-! ## Claim C8: reconnection by name -/

theorem lookupD_delD_ne {κ α : Type} [DecidableEq κ]
    (d : List (κ × α)) (key k : κ) (h : k ≠ key) :
    lookupD (delD d key) k = lookupD d k := by
  induction d with
  | nil => rfl
  | cons e r ih =>
    by_cases he : e.1 = key
    · have hkk : ¬ key = k := fun hk => h hk.symm
      simp [delD, lookupD, he, hkk]
    · simp only [delD, lookupD, if_neg he]
      by_cases he' : e.1 = k
      · simp [lookupD, he']
      · simp [lookupD, he', ih]

/-- Amended C8: when a player joins under a new connection id while
their previous entry (same name case-insensitively) is still in the
roster, and the chosen emoji is not in use by any current entry, the
entry moves to the new id keeping score, likes and prompt (only the
emoji is updated) — but the server sends exactly one `joined` event and
no phase-appropriate `wait`/active-turn event. -/
theorem rejoin_moves_entry_sends_joined_only (st : GameState)
    (pid raw emoji oldPid : String) (pdata : Player)
    (hemoji : (st.players.any
      (fun e => !(e.1 == pid) && (e.2.emoji == emoji))) = false)
    (hfind : st.players.find?
        (fun e => (pyLower e.2.name == pyLower (pyStrip raw)) && !(e.1 == pid))
      = some (oldPid, pdata)) :
    handle_join st pid raw emoji
      = ({ st with
            players := delD (setD st.players pid { pdata with emoji := emoji }) oldPid },
         [.joined pid pdata.color_index]) ∧
    lookupD (handle_join st pid raw emoji).1.players pid
      = some { pdata with emoji := emoji } := by
  have hpred := List.find?_some hfind
  have hne : oldPid ≠ pid := by
    simp only [Bool.and_eq_true, Bool.not_eq_true', beq_eq_false_iff_ne,
      ne_eq] at hpred
    exact hpred.2
  have hinner : (st.players.any (fun e =>
      !(e.1 == oldPid) && !(e.1 == pid) && (e.2.emoji == emoji))) = false := by
    rw [List.any_eq_false]
    rw [List.any_eq_false] at hemoji
    intro e he
    have h1 := hemoji e he
    intro h2
    refine h1 ?_
    simp only [Bool.and_eq_true] at h2 ⊢
    exact ⟨h2.1.2, h2.2⟩
  have hmain : handle_join st pid raw emoji
      = ({ st with
            players := delD (setD st.players pid { pdata with emoji := emoji }) oldPid },
         [.joined pid pdata.color_index]) := by
    simp only [handle_join, hemoji, Bool.false_eq_true, ite_false, hfind,
      hinner]
  refine ⟨hmain, ?_⟩
  rw [hmain]
  rw [lookupD_delD_ne _ _ _ (Ne.symm hne), lookupD_setD_self]

/-- Witness for the amended C8: `" ann "` rejoins under the id `sx`
with a fresh emoji while the old entry (score 700, likes 3, prompt
kept) is still present. -/
theorem rejoin_moves_entry_sends_joined_only_witness :
    lookupD (handle_join
      ⟨"guessing",
       [("sa", ⟨"Ann", "e1", 700, 3, false, 0, some "flying cat"⟩),
        ("sb", ⟨"Bob", "e2", 500, 1, false, 1, some "red barn"⟩)],
       [⟨"sa", "flying cat", "img"⟩], [(0, [])], [], 0, 0, [], 1, []⟩
      "sx" " ann " "e9").1.players "sx"
      = some ⟨"Ann", "e9", 700, 3, false, 0, some "flying cat"⟩ :=
  (rejoin_moves_entry_sends_joined_only
    ⟨"guessing",
     [("sa", ⟨"Ann", "e1", 700, 3, false, 0, some "flying cat"⟩),
      ("sb", ⟨"Bob", "e2", 500, 1, false, 1, some "red barn"⟩)],
     [⟨"sa", "flying cat", "img"⟩], [(0, [])], [], 0, 0, [], 1, []⟩
    "sx" " ann " "e9" "sa"
    ⟨"Ann", "e1", 700, 3, false, 0, some "flying cat"⟩
    (by decide) (by decide)).2

/-- Counterexample to C8 as stated: Ann (score 700) disconnects during
the drawing phase — her entry is deleted — and rejoining with the same
name yields only `gameInProgress`: no entry under the new id, score
lost, and no phase-appropriate event. -/
theorem rejoin_after_processed_disconnect_fails :
    (handle_join
      (handle_disconnect
        ⟨"drawing",
         [("sa", ⟨"Ann", "e1", 700, 3, false, 0, some "flying cat"⟩),
          ("sb", ⟨"Bob", "e2", 500, 1, false, 1, some "red barn"⟩),
          ("sc", ⟨"Cid", "e3", 0, 0, false, 2, some "blue dog"⟩)],
         [], [], [], 0, 0, ["sa", "sb", "sc"], 1, []⟩
        "sa").state
      "sx" "Ann" "e9").2 = [.gameInProgress "sx"] ∧
    lookupD (handle_join
      (handle_disconnect
        ⟨"drawing",
         [("sa", ⟨"Ann", "e1", 700, 3, false, 0, some "flying cat"⟩),
          ("sb", ⟨"Bob", "e2", 500, 1, false, 1, some "red barn"⟩),
          ("sc", ⟨"Cid", "e3", 0, 0, false, 2, some "blue dog"⟩)],
         [], [], [], 0, 0, ["sa", "sb", "sc"], 1, []⟩
        "sa").state
      "sx" "Ann" "e9").1.players "sx" = none := by
  constructor
  · rfl
  · rfl

/-! ## Claims C1 and C4: the scoring engine -/

theorem lookupD_likeFold (t : String) (gs : List Guess) :
    ∀ (ps : List (String × Player)) (pid : String) (pl : Player),
      lookupD ps pid = some pl →
      lookupD (gs.foldl
          (fun ps g => if g.guess = t then
            updD ps g.player_id (fun p => { p with likes := p.likes + 1 })
          else ps) ps) pid
        = some { pl with likes := (pl.likes
            + gs.countP (fun g => (g.guess == t) && (g.player_id == pid))) } := by
  induction gs with
  | nil =>
    intro ps pid pl hpl
    simpa [List.countP] using hpl
  | cons g r ih =>
    intro ps pid pl hpl
    simp only [List.foldl_cons, List.countP_cons]
    by_cases hgt : g.guess = t
    · rw [if_pos hgt]
      by_cases hpid : g.player_id = pid
      · have hup : lookupD (updD ps g.player_id
            (fun p => { p with likes := p.likes + 1 })) pid
            = some { pl with likes := pl.likes + 1 } := by
          rw [hpid, lookupD_updD_self, hpl]
          rfl
        have hcnt : (if (g.guess == t) && (g.player_id == pid) then 1 else 0)
            = 1 := by simp [hgt, hpid]
        rw [hcnt]
        have harr : pl.likes +
            (r.countP (fun g => (g.guess == t) && (g.player_id == pid)) + 1)
            = (pl.likes + 1) +
              r.countP (fun g => (g.guess == t) && (g.player_id == pid)) := by
          omega
        rw [harr, ih _ pid _ hup]
      · have hup : lookupD (updD ps g.player_id
            (fun p => { p with likes := p.likes + 1 })) pid = some pl := by
          rw [lookupD_updD_ne _ _ _ _ hpid, hpl]
        have hcnt : (if (g.guess == t) && (g.player_id == pid) then 1 else 0)
            = 0 := by simp [hpid]
        rw [hcnt]
        have harr : pl.likes +
            (r.countP (fun g => (g.guess == t) && (g.player_id == pid)) + 0)
            = pl.likes +
              r.countP (fun g => (g.guess == t) && (g.player_id == pid)) := by
          omega
        rw [harr, ih _ pid _ hup]
    · rw [if_neg hgt]
      have hcnt : (if (g.guess == t) && (g.player_id == pid) then 1 else 0)
          = 0 := by simp [hgt]
      rw [hcnt]
      have harr : pl.likes +
          (r.countP (fun g => (g.guess == t) && (g.player_id == pid)) + 0)
          = pl.likes +
            r.countP (fun g => (g.guess == t) && (g.player_id == pid)) := by
        omega
      rw [harr, ih _ pid _ hpl]

theorem lookupD_awardLikes (gs : List Guess) (ls : List String) :
    ∀ (ps : List (String × Player)) (pid : String) (pl : Player),
      lookupD ps pid = some pl →
      lookupD (awardLikes gs ls ps) pid
        = some { pl with likes := (pl.likes
            + (ls.map (fun t =>
                gs.countP (fun g => (g.guess == t) && (g.player_id == pid)))).sum) } := by
  induction ls with
  | nil =>
    intro ps pid pl hpl
    simpa [awardLikes] using hpl
  | cons t ts ih =>
    intro ps pid pl hpl
    have hstep := lookupD_likeFold t gs ps pid pl hpl
    simp only [awardLikes, List.foldl_cons] at ih ⊢
    simp only [List.map_cons, List.sum_cons]
    have harr : pl.likes +
        (gs.countP (fun g => (g.guess == t) && (g.player_id == pid)) +
          (ts.map (fun t =>
            gs.countP (fun g => (g.guess == t) && (g.player_id == pid)))).sum)
        = (pl.likes + gs.countP (fun g => (g.guess == t) && (g.player_id == pid))) +
          (ts.map (fun t =>
            gs.countP (fun g => (g.guess == t) && (g.player_id == pid)))).sum := by
      omega
    rw [harr, ih _ pid _ hstep]

theorem lookupD_updD_score (d : List (String × Player)) (k pid : String)
    (n : Nat) (pl : Player) (hpl : lookupD d pid = some pl) :
    lookupD (updD d k (fun p => { p with score := p.score + n })) pid
      = some { pl with score := (pl.score + if k = pid then n else 0) } := by
  by_cases h : k = pid
  · subst h
    rw [lookupD_updD_self, hpl]
    simp
  · rw [lookupD_updD_ne _ _ _ _ h, hpl]
    simp [h]

theorem lookupD_processVote (pr ar : String) (gs : List Guess) (v : Vote)
    (ps : List (String × Player)) (ds : List VoteDetail) (pid : String)
    (pl : Player) (hpl : lookupD ps pid = some pl) :
    lookupD (processVote pr ar gs (ps, ds) v).1 pid
      = some { pl with
          score := (pl.score + voteAwardCode pr ar gs pid v),
          likes := (pl.likes + likeAwardSpec gs pid v) } := by
  have h1 := lookupD_awardLikes gs v.likes ps pid pl hpl
  cases hv : v.vote with
  | none =>
    simp only [processVote, hv, voteAwardCode, likeAwardSpec, Nat.add_zero]
    exact h1
  | some c =>
    by_cases hc : c = ""
    · subst hc
      simp only [processVote, hv, voteAwardCode, likeAwardSpec, if_pos rfl,
        Nat.add_zero]
      exact h1
    · by_cases hpm : pyLower c = pyLower pr
      · have h2 := lookupD_updD_score (awardLikes gs v.likes ps) v.player_id
          pid 1000 _ h1
        have h3 := lookupD_updD_score
          (updD (awardLikes gs v.likes ps) v.player_id
            (fun p => { p with score := p.score + 1000 }))
          ar pid 500 _ h2
        simp only [processVote, hv, if_neg hc, if_pos hpm]
        rw [h3]
        simp only [voteAwardCode, hv, if_neg hc, if_pos hpm, likeAwardSpec,
          Option.some.injEq, Player.mk.injEq, true_and, and_true]
        omega
      · simp only [processVote, hv, if_neg hc, if_neg hpm]
        cases hf : gs.find?
            (fun g => !(g.guess == "") && (pyLower g.guess == pyLower c)) with
        | none =>
          simp only [voteAwardCode, hv, if_neg hc, if_neg hpm, hf,
            likeAwardSpec, Nat.add_zero]
          exact h1
        | some g =>
          have h2 := lookupD_updD_score (awardLikes gs v.likes ps) g.player_id
            pid 500 _ h1
          rw [h2]
          simp only [voteAwardCode, hv, if_neg hc, if_neg hpm, hf,
            likeAwardSpec, Option.some.injEq, Player.mk.injEq, true_and,
            and_true]

theorem lookupD_foldl_processVote (pr ar : String) (gs : List Guess)
    (votes : List Vote) :
    ∀ (ps : List (String × Player)) (ds : List VoteDetail) (pid : String)
      (pl : Player), lookupD ps pid = some pl →
      lookupD ((votes.foldl (processVote pr ar gs) (ps, ds)).1) pid
        = some { pl with
            score := (pl.score + (votes.map (voteAwardCode pr ar gs pid)).sum),
            likes := (pl.likes + (votes.map (likeAwardSpec gs pid)).sum) } := by
  induction votes with
  | nil =>
    intro ps ds pid pl hpl
    simpa using hpl
  | cons v r ih =>
    intro ps ds pid pl hpl
    simp only [List.foldl_cons, List.map_cons, List.sum_cons]
    have h1 := lookupD_processVote pr ar gs v ps ds pid pl hpl
    have harr1 : pl.score + (voteAwardCode pr ar gs pid v +
        (r.map (voteAwardCode pr ar gs pid)).sum)
        = (pl.score + voteAwardCode pr ar gs pid v) +
          (r.map (voteAwardCode pr ar gs pid)).sum := by omega
    have harr2 : pl.likes + (likeAwardSpec gs pid v +
        (r.map (likeAwardSpec gs pid)).sum)
        = (pl.likes + likeAwardSpec gs pid v) +
          (r.map (likeAwardSpec gs pid)).sum := by omega
    rw [harr1, harr2]
    exact ih (processVote pr ar gs (ps, ds) v).1
      (processVote pr ar gs (ps, ds) v).2 pid _ h1

theorem voteAwardSpec_eq_code (pr ar : String) (gs : List Guess)
    (pid : String) (v : Vote) (hpr : pr ≠ "") :
    voteAwardSpec pr ar gs pid v = voteAwardCode pr ar gs pid v := by
  cases hv : v.vote with
  | none => simp [voteAwardSpec, voteAwardCode, hv]
  | some c =>
    by_cases hc : c = ""
    · subst hc
      have hne : ¬ pyLower "" = pyLower pr := by
        rw [pyLower_empty]
        intro h
        exact hpr ((pyLower_eq_empty_iff pr).mp h.symm)
      have hfind : gs.find?
          (fun g => !(g.guess == "") && (pyLower g.guess == pyLower "")) = none := by
        rw [List.find?_eq_none]
        intro g hg
        simp only [pyLower_empty, Bool.and_eq_true, Bool.not_eq_true',
          beq_eq_false_iff_ne, beq_iff_eq, ne_eq, not_and]
        intro hgn hl
        exact hgn ((pyLower_eq_empty_iff g.guess).mp hl)
      simp [voteAwardSpec, voteAwardCode, hv, hne, hfind]
    · simp [voteAwardSpec, voteAwardCode, hv, hc]

/-- C1: for every recorded vote of a drawing (with a non-empty real
prompt), a choice that case-insensitively equals the prompt gives the
voter +1000 and the artist +500, otherwise a choice equal to some
recorded guess's text gives that guess's author +500 and the voter 0;
each surviving player's new score is their old score plus the sum of
these per-vote awards. -/
theorem scoring_matches_spec_per_vote (st : GameState) (i : Nat)
    (drawing : Drawing) (hdraw : st.drawings[i]? = some drawing)
    (hpr : drawing.prompt ≠ "") (pid : String) (pl : Player)
    (hpl : lookupD st.players pid = some pl) :
    Option.map Player.score
        (lookupD (calculate_scores_for_drawing st i).1.players pid)
      = some (pl.score +
          ((getD st.votes i []).map
            (voteAwardSpec drawing.prompt drawing.player_id
              (getD st.guesses i []) pid)).sum) := by
  have hmaps : (getD st.votes i []).map
      (voteAwardSpec drawing.prompt drawing.player_id (getD st.guesses i []) pid)
      = (getD st.votes i []).map
        (voteAwardCode drawing.prompt drawing.player_id (getD st.guesses i []) pid) :=
    List.map_congr_left (fun v _ =>
      voteAwardSpec_eq_code drawing.prompt drawing.player_id
        (getD st.guesses i []) pid v hpr)
  rw [hmaps]
  simp only [calculate_scores_for_drawing, hdraw]
  rw [lookupD_foldl_processVote drawing.prompt drawing.player_id
    (getD st.guesses i []) (getD st.votes i []) st.players [] pid pl hpl]
  rfl

/-- C4: every `likedText` in every vote (correct, wrong, empty or the
artist's likes-only `None` vote alike) increments the likes counter of
each player who authored a guess whose text equals the liked text
exactly (case-sensitively): each surviving player's new likes count is
their old count plus, per vote, the number of (likedText, guess) pairs
matching them exactly. -/
theorem likes_match_spec_exact (st : GameState) (i : Nat)
    (drawing : Drawing) (hdraw : st.drawings[i]? = some drawing)
    (pid : String) (pl : Player)
    (hpl : lookupD st.players pid = some pl) :
    Option.map Player.likes
        (lookupD (calculate_scores_for_drawing st i).1.players pid)
      = some (pl.likes +
          ((getD st.votes i []).map
            (likeAwardSpec (getD st.guesses i []) pid)).sum) := by
  simp only [calculate_scores_for_drawing, hdraw]
  rw [lookupD_foldl_processVote drawing.prompt drawing.player_id
    (getD st.guesses i []) (getD st.votes i []) st.players [] pid pl hpl]
  rfl

/-- Witness for C1: the spec's three-player example — prompt
`"flying cat"` by A; B guesses `"cat with wings"`, C `"superman"`;
B votes the truth, C votes B's fake, A likes-only.  Final deltas:
A = 500, B = 1500, C = 0. -/
theorem scoring_matches_spec_per_vote_witness :
    Option.map Player.score
      (lookupD (calculate_scores_for_drawing
        ⟨"results",
         [("a", ⟨"A", "e1", 0, 0, false, 0, some "flying cat"⟩),
          ("b", ⟨"B", "e2", 0, 0, false, 1, none⟩),
          ("c", ⟨"C", "e3", 0, 0, false, 2, none⟩)],
         [⟨"a", "flying cat", "img"⟩],
         [(0, [⟨"b", "cat with wings"⟩, ⟨"c", "superman"⟩])],
         [(0, [⟨"b", some "flying cat", []⟩, ⟨"c", some "cat with wings", []⟩,
               ⟨"a", none, []⟩])],
         0, 0, [], 1, []⟩ 0).1.players "a") = some 500 ∧
    Option.map Player.score
      (lookupD (calculate_scores_for_drawing
        ⟨"results",
         [("a", ⟨"A", "e1", 0, 0, false, 0, some "flying cat"⟩),
          ("b", ⟨"B", "e2", 0, 0, false, 1, none⟩),
          ("c", ⟨"C", "e3", 0, 0, false, 2, none⟩)],
         [⟨"a", "flying cat", "img"⟩],
         [(0, [⟨"b", "cat with wings"⟩, ⟨"c", "superman"⟩])],
         [(0, [⟨"b", some "flying cat", []⟩, ⟨"c", some "cat with wings", []⟩,
               ⟨"a", none, []⟩])],
         0, 0, [], 1, []⟩ 0).1.players "b") = some 1500 ∧
    Option.map Player.score
      (lookupD (calculate_scores_for_drawing
        ⟨"results",
         [("a", ⟨"A", "e1", 0, 0, false, 0, some "flying cat"⟩),
          ("b", ⟨"B", "e2", 0, 0, false, 1, none⟩),
          ("c", ⟨"C", "e3", 0, 0, false, 2, none⟩)],
         [⟨"a", "flying cat", "img"⟩],
         [(0, [⟨"b", "cat with wings"⟩, ⟨"c", "superman"⟩])],
         [(0, [⟨"b", some "flying cat", []⟩, ⟨"c", some "cat with wings", []⟩,
               ⟨"a", none, []⟩])],
         0, 0, [], 1, []⟩ 0).1.players "c") = some 0 := by
  refine ⟨?_, ?_, ?_⟩
  · rw [scoring_matches_spec_per_vote
      ⟨"results",
       [("a", ⟨"A", "e1", 0, 0, false, 0, some "flying cat"⟩),
        ("b", ⟨"B", "e2", 0, 0, false, 1, none⟩),
        ("c", ⟨"C", "e3", 0, 0, false, 2, none⟩)],
       [⟨"a", "flying cat", "img"⟩],
       [(0, [⟨"b", "cat with wings"⟩, ⟨"c", "superman"⟩])],
       [(0, [⟨"b", some "flying cat", []⟩, ⟨"c", some "cat with wings", []⟩,
             ⟨"a", none, []⟩])],
       0, 0, [], 1, []⟩ 0 ⟨"a", "flying cat", "img"⟩ rfl
      (by decide) "a" ⟨"A", "e1", 0, 0, false, 0, some "flying cat"⟩ rfl]
    decide
  · rw [scoring_matches_spec_per_vote
      ⟨"results",
       [("a", ⟨"A", "e1", 0, 0, false, 0, some "flying cat"⟩),
        ("b", ⟨"B", "e2", 0, 0, false, 1, none⟩),
        ("c", ⟨"C", "e3", 0, 0, false, 2, none⟩)],
       [⟨"a", "flying cat", "img"⟩],
       [(0, [⟨"b", "cat with wings"⟩, ⟨"c", "superman"⟩])],
       [(0, [⟨"b", some "flying cat", []⟩, ⟨"c", some "cat with wings", []⟩,
             ⟨"a", none, []⟩])],
       0, 0, [], 1, []⟩ 0 ⟨"a", "flying cat", "img"⟩ rfl
      (by decide) "b" ⟨"B", "e2", 0, 0, false, 1, none⟩ rfl]
    decide
  · rw [scoring_matches_spec_per_vote
      ⟨"results",
       [("a", ⟨"A", "e1", 0, 0, false, 0, some "flying cat"⟩),
        ("b", ⟨"B", "e2", 0, 0, false, 1, none⟩),
        ("c", ⟨"C", "e3", 0, 0, false, 2, none⟩)],
       [⟨"a", "flying cat", "img"⟩],
       [(0, [⟨"b", "cat with wings"⟩, ⟨"c", "superman"⟩])],
       [(0, [⟨"b", some "flying cat", []⟩, ⟨"c", some "cat with wings", []⟩,
             ⟨"a", none, []⟩])],
       0, 0, [], 1, []⟩ 0 ⟨"a", "flying cat", "img"⟩ rfl
      (by decide) "c" ⟨"C", "e3", 0, 0, false, 2, none⟩ rfl]
    decide

/-- Witness for C4: A (the artist, likes-only) likes
`"cat with wings"` exactly → its author B gets one like; B likes
`"superman"` → C gets one like; C likes `"Cat With Wings"`, which
matches no guess case-sensitively → nobody is credited. -/
theorem likes_match_spec_exact_witness :
    Option.map Player.likes
      (lookupD (calculate_scores_for_drawing
        ⟨"results",
         [("a", ⟨"A", "e1", 0, 0, false, 0, some "flying cat"⟩),
          ("b", ⟨"B", "e2", 0, 0, false, 1, none⟩),
          ("c", ⟨"C", "e3", 0, 0, false, 2, none⟩)],
         [⟨"a", "flying cat", "img"⟩],
         [(0, [⟨"b", "cat with wings"⟩, ⟨"c", "superman"⟩])],
         [(0, [⟨"b", some "flying cat", ["superman"]⟩,
               ⟨"c", some "cat with wings", ["Cat With Wings"]⟩,
               ⟨"a", none, ["cat with wings"]⟩])],
         0, 0, [], 1, []⟩ 0).1.players "b") = some 1 ∧
    Option.map Player.likes
      (lookupD (calculate_scores_for_drawing
        ⟨"results",
         [("a", ⟨"A", "e1", 0, 0, false, 0, some "flying cat"⟩),
          ("b", ⟨"B", "e2", 0, 0, false, 1, none⟩),
          ("c", ⟨"C", "e3", 0, 0, false, 2, none⟩)],
         [⟨"a", "flying cat", "img"⟩],
         [(0, [⟨"b", "cat with wings"⟩, ⟨"c", "superman"⟩])],
         [(0, [⟨"b", some "flying cat", ["superman"]⟩,
               ⟨"c", some "cat with wings", ["Cat With Wings"]⟩,
               ⟨"a", none, ["cat with wings"]⟩])],
         0, 0, [], 1, []⟩ 0).1.players "c") = some 1 := by
  constructor
  · rw [likes_match_spec_exact
      ⟨"results",
       [("a", ⟨"A", "e1", 0, 0, false, 0, some "flying cat"⟩),
        ("b", ⟨"B", "e2", 0, 0, false, 1, none⟩),
        ("c", ⟨"C", "e3", 0, 0, false, 2, none⟩)],
       [⟨"a", "flying cat", "img"⟩],
       [(0, [⟨"b", "cat with wings"⟩, ⟨"c", "superman"⟩])],
       [(0, [⟨"b", some "flying cat", ["superman"]⟩,
             ⟨"c", some "cat with wings", ["Cat With Wings"]⟩,
             ⟨"a", none, ["cat with wings"]⟩])],
       0, 0, [], 1, []⟩ 0 ⟨"a", "flying cat", "img"⟩ rfl
      "b" ⟨"B", "e2", 0, 0, false, 1, none⟩ rfl]
    decide
  · rw [likes_match_spec_exact
      ⟨"results",
       [("a", ⟨"A", "e1", 0, 0, false, 0, some "flying cat"⟩),
        ("b", ⟨"B", "e2", 0, 0, false, 1, none⟩),
        ("c", ⟨"C", "e3", 0, 0, false, 2, none⟩)],
       [⟨"a", "flying cat", "img"⟩],
       [(0, [⟨"b", "cat with wings"⟩, ⟨"c", "superman"⟩])],
       [(0, [⟨"b", some "flying cat", ["superman"]⟩,
             ⟨"c", some "cat with wings", ["Cat With Wings"]⟩,
             ⟨"a", none, ["cat with wings"]⟩])],
       0, 0, [], 1, []⟩ 0 ⟨"a", "flying cat", "img"⟩ rfl
      "c" ⟨"C", "e3", 0, 0, false, 2, none⟩ rfl]
    decide

/-! ## Claim C5: vote uniqueness and completion counts -/

theorem fillVote_exists_ext (ps : List (String × Player)) :
    ∀ acc, ∃ ext, ps.foldl fillVote acc = acc ++ ext := by
  induction ps with
  | nil => intro acc; exact ⟨[], by simp⟩
  | cons e r ih =>
    intro acc
    simp only [List.foldl_cons, fillVote]
    by_cases h : acc.any (fun v => v.player_id == e.1)
    · simpa [h] using ih acc
    · obtain ⟨ext, hext⟩ := ih (acc ++ [⟨e.1, some "", []⟩])
      refine ⟨⟨e.1, some "", []⟩ :: ext, ?_⟩
      simp only [h, Bool.false_eq_true, if_false, hext]
      simp
  
theorem fillVote_nodup (ps : List (String × Player)) :
    ∀ acc, (acc.map Vote.player_id).Nodup →
      ((ps.foldl fillVote acc).map Vote.player_id).Nodup := by
  induction ps with
  | nil => intro acc h; simpa using h
  | cons e r ih =>
    intro acc hacc
    simp only [List.foldl_cons, fillVote]
    by_cases h : acc.any (fun v => v.player_id == e.1)
    · simpa [h] using ih acc hacc
    · have h' : (acc.any fun v => v.player_id == e.1) = false := by
        simpa using h
      simp only [h', Bool.false_eq_true, if_false]
      refine ih _ ?_
      simp only [List.map_append, List.map_cons, List.map_nil]
      rw [List.nodup_append]
      refine ⟨hacc, List.nodup_singleton _, ?_⟩
      rw [List.disjoint_singleton]
      rw [List.any_eq_false] at h'
      intro hmem
      obtain ⟨v, hv, hvpid⟩ := List.mem_map.mp hmem
      exact h' v hv (by simp [hvpid])

theorem fillVote_covers (ps : List (String × Player)) :
    ∀ acc e, e ∈ ps →
      e.1 ∈ (ps.foldl fillVote acc).map Vote.player_id := by
  induction ps with
  | nil => intro acc e he; cases he
  | cons f r ih =>
    intro acc e he
    simp only [List.foldl_cons]
    rcases List.mem_cons.mp he with rfl | he'
    · by_cases h : acc.any (fun v => v.player_id == e.1)
      · obtain ⟨v, hv, hveq⟩ := List.any_eq_true.mp h
        obtain ⟨ext, hext⟩ := fillVote_exists_ext r (fillVote acc e)
        rw [hext]
        have hvin : v ∈ fillVote acc e := by
          simp only [fillVote, h, if_true]
          exact hv
        refine List.mem_map.mpr ⟨v, List.mem_append_left _ hvin, ?_⟩
        exact (beq_iff_eq.mp hveq)
      · obtain ⟨ext, hext⟩ := fillVote_exists_ext r (fillVote acc e)
        rw [hext]
        have hvin : (⟨e.1, some "", []⟩ : Vote) ∈ fillVote acc e := by
          simp [fillVote, h]
        exact List.mem_map.mpr ⟨⟨e.1, some "", []⟩,
          List.mem_append_left _ hvin, rfl⟩
    · exact ih (fillVote acc f) e he'

theorem fillVote_length (ps : List (String × Player)) :
    ∀ acc, (ps.map Prod.fst).Nodup →
      (ps.foldl fillVote acc).length
        = acc.length +
          (ps.filter (fun e => !(acc.any (fun v => v.player_id == e.1)))).length := by
  induction ps with
  | nil => intro acc _; simp
  | cons e r ih =>
    intro acc hnodup
    rw [List.map_cons, List.nodup_cons] at hnodup
    simp only [List.foldl_cons, List.filter_cons]
    by_cases h : acc.any (fun v => v.player_id == e.1)
    · have hacc : fillVote acc e = acc := by simp [fillVote, h]
      rw [hacc]
      simp only [h, Bool.not_true, Bool.false_eq_true, if_false]
      exact ih acc hnodup.2
    · have h' : (acc.any fun v => v.player_id == e.1) = false := by
        simpa using h
      have hstep : fillVote acc e = acc ++ [⟨e.1, some "", []⟩] := by
        simp [fillVote, h']
      rw [hstep]
      have hsame : r.filter (fun x =>
          !((acc ++ [(⟨e.1, some "", []⟩ : Vote)]).any
            (fun v => v.player_id == x.1)))
          = r.filter (fun x => !(acc.any (fun v => v.player_id == x.1))) := by
        apply List.filter_congr
        intro x hx
        have hxe : ¬ e.1 = x.1 := by
          intro hcontra
          exact hnodup.1 (hcontra ▸ List.mem_map.mpr ⟨x, hx, rfl⟩)
        simp only [List.any_append, List.any_cons, List.any_nil]
        have hb : ((⟨e.1, some "", []⟩ : Vote).player_id == x.1) = false := by
          simpa using hxe
        simp [hb]
      rw [ih (acc ++ [(⟨e.1, some "", []⟩ : Vote)]) hnodup.2, hsame]
      simp only [h', Bool.not_false, if_true]
      simp only [List.length_append, List.length_cons, List.length_nil]
      omega

theorem countP_or_disjoint {α : Type} (l : List α) (a b : α → Bool)
    (hdisj : ∀ x ∈ l, ¬(a x = true ∧ b x = true)) :
    l.countP (fun x => a x || b x) = l.countP a + l.countP b := by
  induction l with
  | nil => simp
  | cons x r ih =>
    simp only [List.countP_cons]
    rw [ih (fun y hy => hdisj y (List.mem_cons_of_mem _ hy))]
    by_cases ha : a x
    · have hb : b x = false := by
        by_contra hb'
        exact hdisj x (List.mem_cons_self _ _) ⟨ha, by simpa using hb'⟩
      simp [ha, hb]
      omega
    · by_cases hb : b x <;> simp [ha, hb] <;> omega

theorem countP_key_nodup (ps : List (String × Player)) (k : String)
    (hnodup : (ps.map Prod.fst).Nodup) :
    ps.countP (fun e => k == e.1)
      = if (ps.map Prod.fst).contains k then 1 else 0 := by
  induction ps with
  | nil => simp
  | cons e r ih =>
    rw [List.map_cons, List.nodup_cons] at hnodup
    simp only [List.countP_cons, List.map_cons, List.contains_cons]
    by_cases hk : k = e.1
    · have hz : r.countP (fun x => k == x.1) = 0 := by
        rw [List.countP_eq_zero]
        intro x hx
        simp only [beq_iff_eq]
        intro hcontra
        have hco : e.1 = x.1 := hk.symm.trans hcontra
        exact hnodup.1 (hco ▸ List.mem_map.mpr ⟨x, hx, rfl⟩)
      have hkeq : (k == e.1) = true := by simpa using hk
      simp [hz, hkeq]
    · have : (k == e.1) = false := by simpa using hk
      simp only [this, Bool.false_or, if_neg, Bool.false_eq_true, if_false,
        Nat.add_zero]
      exact ih hnodup.2

theorem vote_player_exchange :
    ∀ (vl : List Vote) (ps : List (String × Player)),
      (vl.map Vote.player_id).Nodup → (ps.map Prod.fst).Nodup →
      (vl.filter (fun v => (ps.map Prod.fst).contains v.player_id)).length
        = (ps.filter (fun e => vl.any (fun v => v.player_id == e.1))).length := by
  intro vl
  induction vl with
  | nil => intro ps _ _; simp
  | cons v r ih =>
    intro ps hvl hps
    rw [List.map_cons, List.nodup_cons] at hvl
    rw [← List.countP_eq_length_filter, ← List.countP_eq_length_filter]
    simp only [List.countP_cons, List.any_cons]
    have hsplit : ps.countP (fun e =>
        (v.player_id == e.1) || r.any (fun w => w.player_id == e.1))
        = ps.countP (fun e => v.player_id == e.1)
          + ps.countP (fun e => r.any (fun w => w.player_id == e.1)) := by
      apply countP_or_disjoint
      intro e _ hboth
      have h1 : v.player_id = e.1 := beq_iff_eq.mp hboth.1
      obtain ⟨w, hw, hweq⟩ := List.any_eq_true.mp hboth.2
      have h2 : w.player_id = e.1 := beq_iff_eq.mp hweq
      exact hvl.1 (List.mem_map.mpr ⟨w, hw, by rw [h2, ← h1]⟩)
    rw [hsplit, countP_key_nodup ps v.player_id hps]
    have hr := ih ps hvl.2 hps
    rw [← List.countP_eq_length_filter, ← List.countP_eq_length_filter] at hr
    rw [hr]
    cases hc : (ps.map Prod.fst).contains v.player_id <;> simp [hc] <;> omega

theorem length_filter_not_add {α : Type} (l : List α) (p : α → Bool) :
    (l.filter (fun x => !(p x))).length + (l.filter p).length = l.length := by
  induction l with
  | nil => simp
  | cons x r ih =>
    simp only [List.filter_cons]
    by_cases h : p x <;> simp [h] <;> omega

/-- Amended C5: a second `submitVote` / `submitLikesOnly` from a player
who already has a vote for the current drawing leaves the vote list (and
the whole votes map) unchanged; the timer-expiry auto-fill keeps the
per-player uniqueness of votes and gives every live roster player
exactly one vote, so the final count equals the roster size PLUS the
number of retained votes from players no longer in the roster (the
as-stated equality with the roster size fails when such stale votes
exist). -/
theorem votes_unique_and_completion_count :
    (∀ st pid raw likes vl,
      lookupD st.votes st.current_drawing_index = some vl →
      vl.any (fun v => v.player_id == pid) = true →
      (handle_vote st pid raw likes).state.votes = st.votes) ∧
    (∀ st pid likes vl,
      lookupD st.votes st.current_drawing_index = some vl →
      vl.any (fun v => v.player_id == pid) = true →
      (handle_likes_only st pid likes).state.votes = st.votes) ∧
    (∀ st vl,
      lookupD st.votes st.current_drawing_index = some vl →
      (vl.map Vote.player_id).Nodup →
      (st.players.map Prod.fst).Nodup →
      lookupD (vote_time_up st).state.votes st.current_drawing_index
          = some (st.players.foldl fillVote vl) ∧
      ((st.players.foldl fillVote vl).map Vote.player_id).Nodup ∧
      (∀ e ∈ st.players,
        e.1 ∈ (st.players.foldl fillVote vl).map Vote.player_id) ∧
      (st.players.foldl fillVote vl).length
        = st.players.length +
          (vl.filter (fun v =>
            !((st.players.map Prod.fst).contains v.player_id))).length) := by
  refine ⟨?_, ?_, ?_⟩
  · intro st pid raw likes vl hvl hdup
    simp only [handle_vote, hvl, hdup, if_true]
    rw [setD_self _ _ _ hvl]
    split
    · rw [show_current_scores_votes]
    · simp [HRes.state_ok]
  · intro st pid likes vl hvl hdup
    simp only [handle_likes_only, hvl, hdup, if_true]
    rw [setD_self _ _ _ hvl]
    split
    · rw [show_current_scores_votes]
    · simp [HRes.state_ok]
  · intro st vl hvl hnd hps
    refine ⟨?_, fillVote_nodup st.players vl hnd,
      fun e he => fillVote_covers st.players vl e he, ?_⟩
    · simp only [vote_time_up, hvl]
      rw [show_current_scores_votes]
      simp [lookupD_setD_self]
    · rw [fillVote_length st.players vl hps]
      have hpart1 := length_filter_not_add st.players
        (fun e => vl.any (fun v => v.player_id == e.1))
      have hpart2 := length_filter_not_add vl
        (fun v => (st.players.map Prod.fst).contains v.player_id)
      have hexch := vote_player_exchange vl st.players hnd hps
      omega

/-- Witness for the amended C5: `b` votes a second time; the recorded
vote list is untouched. -/
theorem votes_unique_and_completion_count_witness :
    (handle_vote
      ⟨"voting",
       [("a", ⟨"A", "e1", 0, 0, false, 0, some "p"⟩),
        ("b", ⟨"B", "e2", 0, 0, false, 1, none⟩),
        ("c", ⟨"C", "e3", 0, 0, false, 2, none⟩)],
       [⟨"a", "p", "img"⟩], [(0, [])],
       [(0, [⟨"b", some "x", []⟩])], 0, 0, [], 1, []⟩
      "b" "y" []).state.votes = [(0, [⟨"b", some "x", []⟩])] ∧
    (handle_likes_only
      ⟨"voting",
       [("a", ⟨"A", "e1", 0, 0, false, 0, some "p"⟩),
        ("b", ⟨"B", "e2", 0, 0, false, 1, none⟩),
        ("c", ⟨"C", "e3", 0, 0, false, 2, none⟩)],
       [⟨"a", "p", "img"⟩], [(0, [])],
       [(0, [⟨"b", some "x", []⟩])], 0, 0, [], 1, []⟩
      "b" []).state.votes = [(0, [⟨"b", some "x", []⟩])] ∧
    (([("sb", (⟨"B", "e2", 0, 0, false, 1, none⟩ : Player)),
       ("sc", ⟨"C", "e3", 0, 0, false, 2, none⟩)]).foldl fillVote
        [⟨"sa", some "x", []⟩]).length = 3 :=
  ⟨(votes_unique_and_completion_count.1
      ⟨"voting",
       [("a", ⟨"A", "e1", 0, 0, false, 0, some "p"⟩),
        ("b", ⟨"B", "e2", 0, 0, false, 1, none⟩),
        ("c", ⟨"C", "e3", 0, 0, false, 2, none⟩)],
       [⟨"a", "p", "img"⟩], [(0, [])],
       [(0, [⟨"b", some "x", []⟩])], 0, 0, [], 1, []⟩
      "b" "y" [] [⟨"b", some "x", []⟩] rfl rfl).trans rfl,
   (votes_unique_and_completion_count.2.1
      ⟨"voting",
       [("a", ⟨"A", "e1", 0, 0, false, 0, some "p"⟩),
        ("b", ⟨"B", "e2", 0, 0, false, 1, none⟩),
        ("c", ⟨"C", "e3", 0, 0, false, 2, none⟩)],
       [⟨"a", "p", "img"⟩], [(0, [])],
       [(0, [⟨"b", some "x", []⟩])], 0, 0, [], 1, []⟩
      "b" [] [⟨"b", some "x", []⟩] rfl rfl).trans rfl,
   ((votes_unique_and_completion_count.2.2
      ⟨"voting",
       [("sb", ⟨"B", "e2", 0, 0, false, 1, none⟩),
        ("sc", ⟨"C", "e3", 0, 0, false, 2, none⟩)],
       [⟨"sb", "p", "img"⟩], [(0, [])],
       [(0, [⟨"sa", some "x", []⟩])], 0, 0, [], 1, []⟩
      [⟨"sa", some "x", []⟩] rfl (by decide) (by decide)).2.2.2).trans
     (by decide)⟩

/-- Counterexample to C5 as stated: `sa` voted, then left the roster;
on voting-timer expiry the auto-fill brings the vote count to 3 while
the live roster has 2 players — the count does not equal the roster
size at completion time. -/
theorem vote_count_exceeds_roster_cex :
    (getD (vote_time_up
      ⟨"voting",
       [("sb", ⟨"B", "e2", 0, 0, false, 1, none⟩),
        ("sc", ⟨"C", "e3", 0, 0, false, 2, none⟩)],
       [⟨"sb", "p", "img"⟩], [(0, [])],
       [(0, [⟨"sa", some "x", []⟩])], 0, 0, [], 1, []⟩).state.votes 0 []).length
      = 3 ∧
    ([("sb", (⟨"B", "e2", 0, 0, false, 1, none⟩ : Player)),
      ("sc", ⟨"C", "e3", 0, 0, false, 2, none⟩)]).length = 2 := by
  constructor
  · rfl
  · rfl
